import Mathlib

/-!
Verification of the session lifecycle and tick pipeline of
`src/breeze_ingestor.py` (the `Ingestor` class and its helper functions).

The Python source is shallowly embedded as executable Lean definitions:

* wall-clock instants become `LocalTime` (a day index plus seconds of day in
  the venue's fixed time zone, IST); `datetime.weekday()` becomes `day % 7`
  with day `0` chosen to be a Monday, matching Python's Monday = 0 convention;
* the holiday set `HOLIDAYS` becomes a `List Nat` of day indices;
* the `Ingestor` mutable fields become the record `IngestorState`;
* the WebSocket callback `Ingestor.on_ticks` becomes a pure state-passing
  function returning the new state together with the list of HTTP POST calls
  it issues and the log events it emits;
* the HTTP response for a POST is supplied by an outcome oracle
  `PostCall → PostOutcome`, since the response influences only logging in the
  source;
* the orchestrator loop `Ingestor.run` is embedded piecewise: the ordered
  list of session-start actions, the subscription pass over a list of
  per-instrument subscribe outcomes, and the CLOSED-branch sleep computation.
-/

/-- An instant in the venue's local time zone (Asia/Kolkata), at one-second
granularity: `day` counts calendar days from an epoch chosen so that
`day % 7 = 0` is a Monday (matching Python's `weekday()`, Monday = 0),
and `sod` is the number of seconds since local midnight. -/
structure LocalTime where
  day : Nat
  sod : Nat
deriving DecidableEq, Repr

/-- Holiday check from the source: `now.strftime('%Y-%m-%d') in HOLIDAYS`,
with calendar dates modelled as day indices. -/
def isHoliday (hs : List Nat) (t : LocalTime) : Prop := t.day ∈ hs

instance (hs : List Nat) (t : LocalTime) : Decidable (isHoliday hs t) :=
  inferInstanceAs (Decidable (t.day ∈ hs))

/-- Embeds `is_market_open` (src/breeze_ingestor.py lines 188-211): holiday
check, weekday check (`now.weekday() > 4` rejects Saturday/Sunday), then
`market_open <= now <= market_close` with `market_open = 9:15:00` and
`market_close = 15:30:00` local time. -/
def is_market_open (hs : List Nat) (now : LocalTime) : Bool :=
  if isHoliday hs now then false
  else if now.day % 7 > 4 then false
  else decide (9 * 3600 + 15 * 60 ≤ now.sod ∧ now.sod ≤ 15 * 3600 + 30 * 60)

/-- Embeds `is_market_session_time` (lines 161-186): same holiday and weekday
checks, with the wider window `9:00:00 <= now <= 15:40:00`. -/
def is_market_session_time (hs : List Nat) (now : LocalTime) : Bool :=
  if isHoliday hs now then false
  else if now.day % 7 > 4 then false
  else decide (9 * 3600 ≤ now.sod ∧ now.sod ≤ 15 * 3600 + 40 * 60)

/-- Embeds the `while True` day scan inside `get_next_market_opening`
(lines 234-244): starting from day `d`, advance one day at a time until a
weekday that is not a holiday is found.  The source loop is unbounded; here
it is given explicit `fuel`, returning `none` when the fuel runs out. -/
def findNextTradingDay (hs : List Nat) : Nat → Nat → Option Nat
  | 0, _ => none
  | fuel + 1, d =>
      if d % 7 ≤ 4 ∧ d ∉ hs then some d
      else findNextTradingDay hs fuel (d + 1)

/-- Embeds `get_next_market_opening` (lines 213-248): if today is a weekday,
not a holiday, and the current time is strictly before today's 9:00 session
start, return today's 9:15 market open; otherwise scan forward from tomorrow
for the next trading day and return its 9:15 market open. -/
def get_next_market_opening (hs : List Nat) (now : LocalTime) (fuel : Nat) :
    Option LocalTime :=
  if now.day % 7 ≤ 4 ∧ now.day ∉ hs ∧ now.sod < 9 * 3600 then
    some ⟨now.day, 9 * 3600 + 15 * 60⟩
  else
    (findNextTradingDay hs fuel (now.day + 1)).map fun d =>
      ⟨d, 9 * 3600 + 15 * 60⟩

/-- Embeds `datetime.replace(hour=h, minute=m)` as used at line 434 of the
source: the hour and minute are replaced, the second (and day) kept. -/
def replace_hm (t : LocalTime) (h m : Nat) : LocalTime :=
  ⟨t.day, h * 3600 + m * 60 + t.sod % 60⟩

/-- The next-session-start instant exactly as `Ingestor.run` consumes
`get_next_market_opening` (lines 431-434): the returned 9:15 opening is
adjusted to 9:00 by `next_opening.replace(hour=9, minute=0)`. -/
def next_session_start (hs : List Nat) (now : LocalTime) (fuel : Nat) :
    Option LocalTime :=
  (get_next_market_opening hs now fuel).map fun o => replace_hm o 9 0

/-- Absolute seconds of an instant, used to translate the
`(next_session_start - now).total_seconds()` subtraction at line 437. -/
def toSeconds (t : LocalTime) : Int := (t.day : Int) * 86400 + (t.sod : Int)

/-- Embeds the CLOSED branch of `Ingestor.run` (lines 429-447): compute the
next opening once, derive the 9:00 session start, and return the single
sleep duration (in seconds) that the branch issues: the full difference when
positive, `60` when not positive, `300` when no opening could be computed. -/
def closed_branch_sleep (hs : List Nat) (now : LocalTime) (fuel : Nat) : Int :=
  match next_session_start hs now fuel with
  | some nss =>
      let sleep_seconds := toSeconds nss - toSeconds now
      if sleep_seconds > 0 then sleep_seconds else 60
  | none => 300

/-- The mutable fields of the `Ingestor` instance that the tick pipeline
reads and writes (lines 250-254): the last-seen-timestamp dictionary
(modelled as an association list from stock code to Unix timestamp) and the
subscription-completion flag. -/
structure IngestorState where
  last_seen_timestamps : List (String × Int)
  subscriptions_complete : Bool
deriving DecidableEq, Repr

/-- Dictionary lookup `stock_code in self.last_seen_timestamps` /
`self.last_seen_timestamps[stock_code]` on the association list. -/
def lookupTs : List (String × Int) → String → Option Int
  | [], _ => none
  | (k, v) :: rest, sc => if k = sc then some v else lookupTs rest sc

/-- Dictionary assignment `self.last_seen_timestamps[stock_code] = timestamp`:
replace the existing binding in place or append a new one. -/
def insertTs : List (String × Int) → String → Int → List (String × Int)
  | [], sc, ts => [(sc, ts)]
  | (k, v) :: rest, sc, ts =>
      if k = sc then (k, ts) :: rest else (k, v) :: insertTs rest sc ts

/-- One inbound dict message as `on_ticks` observes it (lines 287-318):
whether `tick.get("close")` and `tick.get("datetime")` are truthy, the
instant obtained when `datetime.strptime` succeeds (`none` models the parse
raising, which the source catches), the `"stock_code"` value (`none` models
the key missing, raising `KeyError`, which the source catches), and whether
the payload conversions `float(...)`/`int(...)` and remaining key lookups at
lines 309-318 all succeed. -/
structure RawTick where
  closeTruthy : Bool
  datetimeTruthy : Bool
  eventTime : Option Int
  stock_code : Option String
  payloadOk : Bool
deriving DecidableEq, Repr

/-- An element of the tick list: either a dict or some other object (the
source's `isinstance(tick, dict)` check at line 289 fails on the latter). -/
inductive TickItem where
  | dict (tk : RawTick)
  | nonDict
deriving DecidableEq, Repr

/-- The argument of `on_ticks`: a single dict, a list, a falsy value
(`None`, empty dict — caught by `if not ticks` at line 271), or a value of
unexpected type (line 280). -/
inductive TickInput where
  | single (tk : RawTick)
  | list (items : List TickItem)
  | falsy
  | other
deriving DecidableEq, Repr

/-- The HTTP POST issued at lines 321-325: the payload's stock code and Unix
timestamp, and the request timeout (always 3 in the source). -/
structure PostCall where
  stock_code : String
  timestamp : Int
  timeout : Nat
deriving DecidableEq, Repr

/-- The outcome of one POST: an HTTP status code, or
`requests.exceptions.RequestException` raised by the call. -/
inductive PostOutcome where
  | status (code : Nat)
  | requestException
deriving DecidableEq, Repr

/-- The log events emitted inside the per-tick loop (lines 286-337). -/
inductive LogEvent where
  | ingested (sc : String) (ts : Int)
  | ingestFailed (sc : String) (code : Nat)
  | httpRequestFailed (sc : Option String)
  | unexpectedError (sc : Option String)
  | duplicateSkip (sc : String) (ts : Int)
  | invalidItemSkip
deriving DecidableEq, Repr

/-- The log event chosen by the response handling at lines 327-333: a 200
status logs success, any other status logs the failed ingest, and a raised
`RequestException` is caught at line 332 and logged.  The response affects
nothing but this log line. -/
def logOf (oc : PostOutcome) (sc : String) (ts : Int) : LogEvent :=
  match oc with
  | .status c => if c = 200 then .ingested sc ts else .ingestFailed sc c
  | .requestException => .httpRequestFailed (some sc)

/-- Lines 306-333: after deduplication passed, store the timestamp, then (if
the payload conversions succeed) issue exactly one POST with timeout 3 and
log according to the response; a payload-conversion failure raises after the
store and is caught at line 334, so the store is never rolled back. -/
def postBar (ocf : PostCall → PostOutcome) (st : IngestorState)
    (sc : String) (ts : Int) (payloadOk : Bool) :
    IngestorState × List PostCall × List LogEvent :=
  let st' : IngestorState :=
    { st with last_seen_timestamps := insertTs st.last_seen_timestamps sc ts }
  if payloadOk then
    let call : PostCall := ⟨sc, ts, 3⟩
    (st', [call], [logOf (ocf call) sc ts])
  else (st', [], [.unexpectedError (some sc)])

/-- One iteration of the `for tick in ticks_to_process` loop
(lines 286-337): filter non-dicts and messages without truthy `close` and
`datetime`; parse the event time; read the stock code; deduplicate against
the last-seen table (`timestamp <= last_seen` is skipped); otherwise store
and forward via `postBar`.  Every exception inside the iteration is caught,
so a failure never aborts the remaining items. -/
def processTick (ocf : PostCall → PostOutcome) (st : IngestorState)
    (item : TickItem) : IngestorState × List PostCall × List LogEvent :=
  match item with
  | .nonDict => (st, [], [.invalidItemSkip])
  | .dict tk =>
    if tk.closeTruthy && tk.datetimeTruthy then
      match tk.eventTime with
      | none => (st, [], [.unexpectedError tk.stock_code])
      | some ts =>
        match tk.stock_code with
        | none => (st, [], [.unexpectedError none])
        | some sc =>
          match lookupTs st.last_seen_timestamps sc with
          | some prev =>
              if ts ≤ prev then (st, [], [.duplicateSkip sc ts])
              else postBar ocf st sc ts tk.payloadOk
          | none => postBar ocf st sc ts tk.payloadOk
    else (st, [], [.invalidItemSkip])

/-- Left-to-right processing of the normalized tick list, threading the
state and accumulating POSTs and log events in order. -/
def processList (ocf : PostCall → PostOutcome) (st : IngestorState) :
    List TickItem → IngestorState × List PostCall × List LogEvent
  | [] => (st, [], [])
  | item :: rest =>
      let r1 := processTick ocf st item
      let r2 := processList ocf r1.1 rest
      (r2.1, r1.2.1 ++ r2.2.1, r1.2.2 ++ r2.2.2)

/-- Embeds `Ingestor.on_ticks` (lines 256-337).  The two gates come first:
return untouched while `subscriptions_complete` is false (line 263) or while
`is_market_open()` is false (line 267); then the falsy check (line 271) and
input normalization (lines 276-282); then the per-tick loop.  `hs`/`now`
supply the clock that `is_market_open` reads; `ocf` supplies each POST's
outcome. -/
def on_ticks (hs : List Nat) (now : LocalTime) (ocf : PostCall → PostOutcome)
    (st : IngestorState) (input : TickInput) :
    IngestorState × List PostCall × List LogEvent :=
  if !st.subscriptions_complete then (st, [], [])
  else if !is_market_open hs now then (st, [], [])
  else
    match input with
    | .falsy => (st, [], [])
    | .single tk => processList ocf st [.dict tk]
    | .list items =>
        if items.isEmpty then (st, [], [])
        else processList ocf st items
    | .other => (st, [], [])

/-- The mutation applied to the `Ingestor` fields at the start of a session
pass of `Ingestor.run` (lines 339-366): line 360 resets
`subscriptions_complete` to `False`; no statement in `run` assigns
`last_seen_timestamps` (it is assigned only in `__init__`, line 253, and in
`on_ticks`, line 306), so the table is carried over unchanged. -/
def session_start_reset (st : IngestorState) : IngestorState :=
  { st with subscriptions_complete := false }

/-- The externally visible actions of one session pass of `Ingestor.run`,
in source order (lines 345-424): re-read the token (345), generate the API
session (352), connect the WebSocket (355), register `on_ticks` as the feed
handler (357), reset the completion flag (360), resolve the universe (362),
run the subscribe loop (383-398), set the completion flag (401), wait for
the market to open (405-414), run the live loop (420-421), and disconnect
(424).  `resetLastSeenTable` is the action the specification describes of
clearing the last-seen table; it is listed so its absence can be stated. -/
inductive RunEvent where
  | readToken
  | generateSession
  | wsConnect
  | registerHandler
  | resetCompletionFlag
  | resetLastSeenTable
  | resolveUniverse
  | subscribeAll
  | setCompletionFlag
  | waitForOpen
  | liveLoop
  | disconnect
deriving DecidableEq, Repr

/-- The ordered action list of one session pass of `Ingestor.run`
(lines 345-424, in source order).  No `resetLastSeenTable` action occurs
anywhere in `run`. -/
def session_pass_events : List RunEvent :=
  [.readToken, .generateSession, .wsConnect, .registerHandler,
   .resetCompletionFlag, .resolveUniverse, .subscribeAll,
   .setCompletionFlag, .waitForOpen, .liveLoop, .disconnect]

/-- Index of the first occurrence of an action in the session pass. -/
def eventIdx (e : RunEvent) : Nat :=
  session_pass_events.findIdx (fun x => x = e)

/-- One iteration of the subscribe loop (lines 383-398) acting on the pair
(completion flag, successful-subscription counter): `ok` is whether
`subscribe_feeds` returned without raising; an exception is caught at
line 389 and only logged, so the iteration never touches the flag and
increments the counter only on success. -/
def subscribe_step (s : Bool × Nat) (ok : Bool) : Bool × Nat :=
  (s.1, s.2 + if ok then 1 else 0)

/-- The subscribe loop folded over the per-instrument outcomes, also
returning the trace of completion-flag values observed after each
iteration. -/
def subscribe_loop : Bool × Nat → List Bool → (Bool × Nat) × List Bool
  | s, [] => (s, [])
  | s, ok :: rest =>
      let s' := subscribe_step s ok
      let r := subscribe_loop s' rest
      (r.1, s'.1 :: r.2)

/-- One subscription pass of `Ingestor.run` (lines 360-401): the flag is
reset to `False` at line 360, the counter starts at 0 (line 381), the loop
consumes every outcome (exceptions are caught per instrument and never
abort the pass), and line 401 sets the flag to `True` after the loop.
Returns the final (flag, counter) pair together with the full trace of flag
values: after the reset, after each iteration, and after line 401. -/
def subscription_pass (outcomes : List Bool) : (Bool × Nat) × List Bool :=
  let s1 : Bool × Nat := (false, 0)
  let r := subscribe_loop s1 outcomes
  let s3 : Bool × Nat := (true, r.1.2)
  (s3, s1.1 :: r.2 ++ [s3.1])

/-- The `requests` HTTP adapter configuration mounted on the module-level
session (lines 80-89). -/
structure HTTPAdapterConfig where
  pool_connections : Nat
  pool_maxsize : Nat
  max_retries : Nat
  pool_block : Bool
deriving DecidableEq, Repr

/-- Embeds lines 82-87: `HTTPAdapter(pool_connections=20, pool_maxsize=100,
max_retries=1, pool_block=False)`. -/
def session_adapter : HTTPAdapterConfig :=
  { pool_connections := 20, pool_maxsize := 100,
    max_retries := 1, pool_block := false }

/-! ### Helper lemmas -/

theorem lookupTs_insertTs_self (l : List (String × Int)) (sc : String) (ts : Int) :
    lookupTs (insertTs l sc ts) sc = some ts := by
  induction l with
  | nil => simp [insertTs, lookupTs]
  | cons kv rest ih =>
      obtain ⟨k, v⟩ := kv
      by_cases h : k = sc
      · simp [insertTs, lookupTs, h]
      · simp [insertTs, lookupTs, h, ih]

/-! ### Claims -/

/-- C6: for every instant on a non-holiday weekday, `is_market_open` is true
iff the instant lies in the closed interval from 9:15:00 to 15:30:00 venue
time; on a holiday or weekend it is false regardless of the time of day.
Stated as a single biconditional over all instants and holiday sets. -/
theorem is_market_open_iff (hs : List Nat) (now : LocalTime) :
    is_market_open hs now = true ↔
      (¬ isHoliday hs now ∧ now.day % 7 ≤ 4 ∧
       9 * 3600 + 15 * 60 ≤ now.sod ∧ now.sod ≤ 15 * 3600 + 30 * 60) := by
  unfold is_market_open
  by_cases h1 : isHoliday hs now <;> by_cases h2 : now.day % 7 > 4 <;>
    simp [h1, h2] <;> omega

/-- C3: if the subscription-completion flag is false or the market is not
open, `on_ticks` returns with the state unchanged, no POST issued and no log
emitted, for every input — including a well-formed bar newer than anything
seen. -/
theorem on_ticks_gated (hs : List Nat) (now : LocalTime)
    (ocf : PostCall → PostOutcome) (st : IngestorState) (input : TickInput)
    (h : st.subscriptions_complete = false ∨ is_market_open hs now = false) :
    on_ticks hs now ocf st input = (st, [], []) := by
  unfold on_ticks
  rcases h with h | h
  · simp [h]
  · cases hf : st.subscriptions_complete <;> simp [hf, h]

/-- Witness for C3: a well-formed bar for a fresh instrument, delivered
during market hours but with the completion flag still false, is dropped
with no state change. -/
theorem on_ticks_gated_witness :
    on_ticks [] ⟨0, 36000⟩ (fun _ => .status 200) ⟨[], false⟩
      (.single ⟨true, true, some 100, some "ACC", true⟩) = (⟨[], false⟩, [], []) :=
  on_ticks_gated [] ⟨0, 36000⟩ (fun _ => .status 200) ⟨[], false⟩
    (.single ⟨true, true, some 100, some "ACC", true⟩) (Or.inl rfl)

/-- C1 counterexample: the claim says the last-seen table is reset to empty
at the session-start transition of `Ingestor.run`; but `run` only resets the
completion flag (line 360) and never assigns `last_seen_timestamps`, so a
state carrying an entry from a previous session still carries it after the
session-start mutations. -/
theorem session_start_no_table_reset :
    ¬ (session_start_reset ⟨[("ACC", 100)], true⟩).last_seen_timestamps = [] := by
  decide

/-- C1 (amended): at the session-start transition of `Ingestor.run` the
completion flag is reset to false but the last-seen table is carried over
unchanged, so once the new session's subscriptions complete, a bar of the
new session whose event time is not strictly greater than an entry persisted
from the previous session is discarded as a duplicate. -/
theorem session_start_reset_spec (st : IngestorState) (hs : List Nat)
    (now : LocalTime) (ocf : PostCall → PostOutcome) (sc : String)
    (prev ts : Int)
    (hprev : lookupTs st.last_seen_timestamps sc = some prev)
    (hle : ts ≤ prev) :
    (session_start_reset st).last_seen_timestamps = st.last_seen_timestamps ∧
    (session_start_reset st).subscriptions_complete = false ∧
    (on_ticks hs now ocf
        { last_seen_timestamps := (session_start_reset st).last_seen_timestamps,
          subscriptions_complete := true }
        (.single ⟨true, true, some ts, some sc, true⟩)).2.1 = [] := by
  refine ⟨rfl, rfl, ?_⟩
  unfold on_ticks
  cases hopen : is_market_open hs now
  · simp [hopen]
  · simp [hopen, session_start_reset, processList, processTick, hprev, hle]

/-- Witness for C1's amended theorem: an entry ("ACC", 100) persists across
the session start and makes the new session discard a bar at the same event
time. -/
theorem session_start_reset_spec_witness :
    (session_start_reset ⟨[("ACC", 100)], true⟩).last_seen_timestamps
        = [("ACC", 100)] ∧
    (session_start_reset ⟨[("ACC", 100)], true⟩).subscriptions_complete = false ∧
    (on_ticks [] ⟨0, 36000⟩ (fun _ => .status 200)
        { last_seen_timestamps :=
            (session_start_reset ⟨[("ACC", 100)], true⟩).last_seen_timestamps,
          subscriptions_complete := true }
        (.single ⟨true, true, some 100, some "ACC", true⟩)).2.1 = [] :=
  session_start_reset_spec ⟨[("ACC", 100)], true⟩ [] ⟨0, 36000⟩
    (fun _ => .status 200) "ACC" 100 100 (by decide) (by decide)

/-- C7 counterexample: the claim says all session-boundary resets happen
before `on_ticks` is registered as the feed handler; but in `Ingestor.run`
the handler is registered at line 357 and the completion flag is reset only
at line 360, and no action of `run` clears the last-seen table at all. -/
theorem session_start_order_violated :
    ¬ (eventIdx .resetCompletionFlag < eventIdx .registerHandler ∧
       RunEvent.resetLastSeenTable ∈ session_pass_events ∧
       eventIdx .resetLastSeenTable < eventIdx .registerHandler) := by
  decide

/-- C7 (amended): in the session-start sequence of `Ingestor.run` the
`on_ticks` handler is registered (line 357) strictly before the completion
flag is reset (line 360), and the last-seen table is never reset anywhere in
the pass; a handler invocation arriving between registration and the reset
can therefore observe the previous session's flag value. -/
theorem session_start_order_spec :
    eventIdx .registerHandler < eventIdx .resetCompletionFlag ∧
    RunEvent.resetLastSeenTable ∉ session_pass_events := by
  decide

/-- C9 counterexample: the claim says the CLOSED-branch sleeps are bounded
slices of at most 60 seconds; but on a Friday evening (day 4 at 20:00, no
holidays) the branch issues one sleep of 219600 seconds — the whole span
until Monday 9:00. -/
theorem closed_branch_sleep_unbounded :
    ¬ closed_branch_sleep [] ⟨4, 72000⟩ 10 ≤ 60 := by
  decide

/-- C9 (amended): when outside a session window, `Ingestor.run` computes the
next session start once and then issues a single uninterrupted sleep for the
entire remaining duration when that duration is positive; it sleeps 60
seconds when the computed start is not in the future, and 300 seconds when
no next opening could be computed.  There is no 60-second slicing of a
positive wait. -/
theorem closed_branch_sleep_spec (hs : List Nat) (now : LocalTime)
    (fuel : Nat) :
    (∀ nss, next_session_start hs now fuel = some nss →
       toSeconds nss - toSeconds now > 0 →
       closed_branch_sleep hs now fuel = toSeconds nss - toSeconds now) ∧
    (∀ nss, next_session_start hs now fuel = some nss →
       ¬ toSeconds nss - toSeconds now > 0 →
       closed_branch_sleep hs now fuel = 60) ∧
    (next_session_start hs now fuel = none →
       closed_branch_sleep hs now fuel = 300) := by
  refine ⟨?_, ?_, ?_⟩
  · intro nss h hpos
    unfold closed_branch_sleep
    rw [h]
    simp [hpos]
  · intro nss h hpos
    unfold closed_branch_sleep
    rw [h]
    simp [hpos]
  · intro h
    unfold closed_branch_sleep
    rw [h]

/-- Witness for C9's amended theorem: the Friday-evening input produces the
single full-length sleep of 219600 seconds. -/
theorem closed_branch_sleep_spec_witness :
    closed_branch_sleep [] ⟨4, 72000⟩ 10 = 219600 :=
  ((closed_branch_sleep_spec [] ⟨4, 72000⟩ 10).1 ⟨7, 32400⟩ (by decide)
    (by decide)).trans (by decide)

/-- The subscribe loop started with the flag false keeps it false through
every iteration and counts exactly the successful outcomes. -/
theorem subscribe_loop_flag_false (c : Nat) (ocs : List Bool) :
    subscribe_loop (false, c) ocs =
      ((false, c + ocs.count true), List.replicate ocs.length false) := by
  induction ocs generalizing c with
  | nil => simp [subscribe_loop]
  | cons ok rest ih =>
      cases ok <;>
        simp [subscribe_loop, subscribe_step, ih, List.count_cons,
              List.replicate_succ] <;> omega

/-- C4: within one session pass, the subscription loop leaves the completion
flag false after the line-360 reset and after every one of the
per-instrument iterations (whatever mix of successes and caught failures the
outcomes are), every instrument is iterated, the success counter counts
exactly the successful subscribes, the flag ends true and is set true
exactly once in the whole trace; and no later action of the session pass
resets the flag again, so it stays true until the next session's reset. -/
theorem subscription_pass_spec (outcomes : List Bool) :
    (subscription_pass outcomes).2
        = List.replicate (outcomes.length + 1) false ++ [true] ∧
    (subscription_pass outcomes).2.count true = 1 ∧
    (subscription_pass outcomes).1.1 = true ∧
    (subscription_pass outcomes).1.2 = outcomes.count true ∧
    (session_pass_events.drop (eventIdx .setCompletionFlag + 1)).count
        .resetCompletionFlag = 0 := by
  have h := subscribe_loop_flag_false 0 outcomes
  refine ⟨?_, ?_, ?_, ?_, by decide⟩
  · simp [subscription_pass, h, List.replicate_succ]
  · simp [subscription_pass, h, List.count_replicate]
  · simp [subscription_pass, h]
  · simp [subscription_pass, h]

/-- Soundness of the day scan: when it returns a day, that day is at or
after the start, is a non-holiday weekday, and every day between the start
and it was a weekend day or a holiday. -/
theorem findNextTradingDay_sound (hs : List Nat) :
    ∀ fuel start d, findNextTradingDay hs fuel start = some d →
      start ≤ d ∧ d % 7 ≤ 4 ∧ d ∉ hs ∧
      ∀ e, start ≤ e → e < d → ¬(e % 7 ≤ 4 ∧ e ∉ hs) := by
  intro fuel
  induction fuel with
  | zero =>
      intro start d h
      simp [findNextTradingDay] at h
  | succ n ih =>
      intro start d h
      unfold findNextTradingDay at h
      by_cases hc : start % 7 ≤ 4 ∧ start ∉ hs
      · rw [if_pos hc] at h
        obtain rfl : start = d := Option.some.inj h
        exact ⟨le_refl _, hc.1, hc.2, fun e he1 he2 => absurd he1 (by omega)⟩
      · rw [if_neg hc] at h
        obtain ⟨h1, h2, h3, h4⟩ := ih (start + 1) d h
        refine ⟨by omega, h2, h3, fun e he1 he2 => ?_⟩
        rcases Nat.eq_or_lt_of_le he1 with heq | hlt
        · exact heq ▸ hc
        · exact h4 e hlt he2

/-- C5: the next-session-start instant as `Ingestor.run` consumes
`get_next_market_opening`.  First conjunct: the spec's concrete scenario — a
Friday evening after session end (day 4 at 20:00) with Saturday, Sunday and
the following Monday (days 5, 6, 7) in the holiday set yields the Tuesday
(day 8) preparation start, 9:00 venue time.  Second conjunct: when today is
a non-holiday weekday and 9:00 has not yet been reached, today's 9:00 is
returned.  Third conjunct: otherwise any returned instant is the 9:00 of
the first non-holiday weekday strictly after today, every day in between
being a weekend day or holiday. -/
theorem next_session_start_spec (hs : List Nat) (now : LocalTime)
    (fuel : Nat) :
    (next_session_start [5, 6, 7] ⟨4, 72000⟩ 10 = some ⟨8, 9 * 3600⟩) ∧
    (now.day % 7 ≤ 4 ∧ now.day ∉ hs ∧ now.sod < 9 * 3600 →
       next_session_start hs now fuel = some ⟨now.day, 9 * 3600⟩) ∧
    (∀ r, ¬(now.day % 7 ≤ 4 ∧ now.day ∉ hs ∧ now.sod < 9 * 3600) →
       next_session_start hs now fuel = some r →
       r.sod = 9 * 3600 ∧ now.day + 1 ≤ r.day ∧ r.day % 7 ≤ 4 ∧
       r.day ∉ hs ∧
       ∀ e, now.day + 1 ≤ e → e < r.day → ¬(e % 7 ≤ 4 ∧ e ∉ hs)) := by
  refine ⟨by decide, ?_, ?_⟩
  · intro h
    unfold next_session_start get_next_market_opening
    rw [if_pos h]
    show some (replace_hm ⟨now.day, 9 * 3600 + 15 * 60⟩ 9 0) = _
    unfold replace_hm
    norm_num
  · intro r h hr
    unfold next_session_start get_next_market_opening at hr
    rw [if_neg h] at hr
    rw [Option.map_map] at hr
    obtain ⟨d, hd, hrd⟩ := Option.map_eq_some'.mp hr
    obtain ⟨h1, h2, h3, h4⟩ := findNextTradingDay_sound hs fuel (now.day + 1) d hd
    have hrday : r.day = d := by rw [← hrd]; rfl
    have hrsod : r.sod = 9 * 3600 := by
      rw [← hrd]
      show 9 * 3600 + 0 * 60 + (9 * 3600 + 15 * 60) % 60 = 9 * 3600
      norm_num
    refine ⟨hrsod, ?_, ?_, ?_, ?_⟩
    · rw [hrday]; exact h1
    · rw [hrday]; exact h2
    · rw [hrday]; exact h3
    · intro e he1 he2
      exact h4 e he1 (by rwa [hrday] at he2)

/-- Witness for C5: on a Monday (day 0) at 8:20, with no holidays, the
consumed next session start is that same day's 9:00. -/
theorem next_session_start_spec_witness :
    next_session_start [] ⟨0, 30000⟩ 10 = some ⟨0, 9 * 3600⟩ :=
  (next_session_start_spec [] ⟨0, 30000⟩ 10).2.1 (by decide)

/-- One loop iteration on a well-formed bar whose event time is strictly
newer than any stored entry for its stock code: the table entry is stored
first, then exactly one POST with timeout 3 is issued and the response is
only logged. -/
theorem processTick_fresh (ocf : PostCall → PostOutcome) (st : IngestorState)
    (sc : String) (ts : Int)
    (hfresh : ∀ prev, lookupTs st.last_seen_timestamps sc = some prev →
       prev < ts) :
    processTick ocf st (.dict ⟨true, true, some ts, some sc, true⟩) =
      ({ st with
          last_seen_timestamps := insertTs st.last_seen_timestamps sc ts },
       [⟨sc, ts, 3⟩], [logOf (ocf ⟨sc, ts, 3⟩) sc ts]) := by
  unfold processTick
  cases hl : lookupTs st.last_seen_timestamps sc with
  | none => simp [postBar, hl]
  | some prev =>
      have hlt := hfresh prev hl
      simp [postBar, hl, not_le.mpr hlt]

/-- One loop iteration on a well-formed bar whose event time is not strictly
newer than the stored entry: skipped as a duplicate with no POST and no
state change. -/
theorem processTick_dup (ocf : PostCall → PostOutcome) (st : IngestorState)
    (sc : String) (ts prev : Int)
    (hl : lookupTs st.last_seen_timestamps sc = some prev) (hle : ts ≤ prev) :
    processTick ocf st (.dict ⟨true, true, some ts, some sc, true⟩) =
      (st, [], [.duplicateSkip sc ts]) := by
  unfold processTick
  simp [hl, hle]

/-- With the completion flag true and the market open, a single-dict input
is processed exactly as one loop iteration. -/
theorem on_ticks_single (hs : List Nat) (now : LocalTime)
    (ocf : PostCall → PostOutcome) (st : IngestorState) (tk : RawTick)
    (hflag : st.subscriptions_complete = true)
    (hopen : is_market_open hs now = true) :
    on_ticks hs now ocf st (.single tk) = processTick ocf st (.dict tk) := by
  unfold on_ticks
  simp [hflag, hopen, processList]

/-- C2: with the completion flag true and the market open, a well-formed bar
for stock `sc` with parsed event time `ts` is accepted and forwarded
(exactly one POST, with timeout 3) iff `ts` is strictly greater than the
stored last-seen entry for `sc` (vacuously so when no entry exists); and a
second delivery of the identical bar issues no POST — so feeding the same
bar twice yields exactly one downstream submit. -/
theorem on_ticks_dedup (hs : List Nat) (now : LocalTime)
    (ocf : PostCall → PostOutcome) (st : IngestorState) (sc : String)
    (ts : Int)
    (hflag : st.subscriptions_complete = true)
    (hopen : is_market_open hs now = true) :
    ((on_ticks hs now ocf st
        (.single ⟨true, true, some ts, some sc, true⟩)).2.1 = [⟨sc, ts, 3⟩] ↔
      ∀ prev, lookupTs st.last_seen_timestamps sc = some prev → prev < ts) ∧
    (on_ticks hs now ocf
        (on_ticks hs now ocf st
          (.single ⟨true, true, some ts, some sc, true⟩)).1
        (.single ⟨true, true, some ts, some sc, true⟩)).2.1 = [] := by
  rw [on_ticks_single hs now ocf st _ hflag hopen]
  by_cases hacc : ∀ prev, lookupTs st.last_seen_timestamps sc = some prev →
      prev < ts
  · rw [processTick_fresh ocf st sc ts hacc]
    have hflag' :
        ({ st with last_seen_timestamps := insertTs st.last_seen_timestamps sc ts } : IngestorState).subscriptions_complete = true :=
      hflag
    constructor
    · exact iff_of_true rfl hacc
    · rw [on_ticks_single hs now ocf _ _ hflag' hopen]
      rw [processTick_dup ocf _ sc ts ts (lookupTs_insertTs_self _ sc ts)
        (le_refl ts)]
  · push_neg at hacc
    obtain ⟨prev, hl, hcmp⟩ := hacc
    rw [processTick_dup ocf st sc ts prev hl hcmp]
    constructor
    · exact iff_of_false (by simp)
        (fun hf => absurd (hf prev hl) (not_lt.mpr hcmp))
    · rw [on_ticks_single hs now ocf st _ hflag hopen]
      rw [processTick_dup ocf st sc ts prev hl hcmp]

/-- Witness for C2: on an open Monday with an empty table, the first
delivery of a bar for "ACC" at time 100 issues exactly one POST and the
identical second delivery issues none. -/
theorem on_ticks_dedup_witness :
    ((on_ticks [] ⟨0, 36000⟩ (fun _ => .status 200) ⟨[], true⟩
        (.single ⟨true, true, some 100, some "ACC", true⟩)).2.1
      = [⟨"ACC", 100, 3⟩]) ∧
    (on_ticks [] ⟨0, 36000⟩ (fun _ => .status 200)
        (on_ticks [] ⟨0, 36000⟩ (fun _ => .status 200) ⟨[], true⟩
          (.single ⟨true, true, some 100, some "ACC", true⟩)).1
        (.single ⟨true, true, some 100, some "ACC", true⟩)).2.1 = [] :=
  ⟨(on_ticks_dedup [] ⟨0, 36000⟩ (fun _ => .status 200) ⟨[], true⟩ "ACC" 100
      rfl (by decide)).1.mpr (fun prev h => by simp [lookupTs] at h),
   (on_ticks_dedup [] ⟨0, 36000⟩ (fun _ => .status 200) ⟨[], true⟩ "ACC" 100
      rfl (by decide)).2⟩

/-- C8 counterexample: the claim's "never retried — no second request is
issued for that bar" requires the mounted HTTP adapter to perform zero
transport-level retries, i.e. `max_retries = 0`; but line 85 of the source
constructs the adapter with `max_retries=1`, under which the `requests` /
`urllib3` transport retries a failed connection attempt once, issuing a
second request for the same bar on a connection-level transport failure. -/
theorem forwarder_adapter_retries :
    ¬ session_adapter.max_retries = 0 := by
  decide

/-- C8 (amended): for every accepted bar the tick handler issues exactly one
application-level POST, with the mandatory bounded timeout of 3 seconds,
whatever the outcome; a non-success outcome (raised request exception or
non-200 status) is only logged and no second application-level POST is made
for that bar; however the session's HTTP adapter is constructed with
`max_retries = 1`, so the transport layer may retry a failed connection
attempt once. -/
theorem forwarder_spec (ocf : PostCall → PostOutcome) (st : IngestorState)
    (sc : String) (ts : Int)
    (hfresh : ∀ prev, lookupTs st.last_seen_timestamps sc = some prev →
       prev < ts) :
    (processTick ocf st
        (.dict ⟨true, true, some ts, some sc, true⟩)).2.1 = [⟨sc, ts, 3⟩] ∧
    (∀ call ∈ (processTick ocf st
        (.dict ⟨true, true, some ts, some sc, true⟩)).2.1, call.timeout = 3) ∧
    (ocf ⟨sc, ts, 3⟩ = .requestException →
       (processTick ocf st
          (.dict ⟨true, true, some ts, some sc, true⟩)).2.2
         = [.httpRequestFailed (some sc)]) ∧
    (∀ c, ocf ⟨sc, ts, 3⟩ = .status c → c ≠ 200 →
       (processTick ocf st
          (.dict ⟨true, true, some ts, some sc, true⟩)).2.2
         = [.ingestFailed sc c]) ∧
    session_adapter.max_retries = 1 := by
  rw [processTick_fresh ocf st sc ts hfresh]
  refine ⟨rfl, ?_, ?_, ?_, rfl⟩
  · intro call hc
    simp at hc
    rw [hc]
  · intro hoc
    simp [logOf, hoc]
  · intro c hoc hc200
    simp [logOf, hoc, hc200]

/-- Witness for C8's amended theorem: a fresh bar whose POST raises a
request exception produces exactly one POST with timeout 3 and one failure
log. -/
theorem forwarder_spec_witness :
    (processTick (fun _ => .requestException) ⟨[], true⟩
        (.dict ⟨true, true, some 100, some "ACC", true⟩)).2.1
      = [⟨"ACC", 100, 3⟩] ∧
    (processTick (fun _ => .requestException) ⟨[], true⟩
        (.dict ⟨true, true, some 100, some "ACC", true⟩)).2.2
      = [.httpRequestFailed (some "ACC")] :=
  ⟨(forwarder_spec (fun _ => .requestException) ⟨[], true⟩ "ACC" 100
      (fun prev h => by simp [lookupTs] at h)).1,
   (forwarder_spec (fun _ => .requestException) ⟨[], true⟩ "ACC" 100
      (fun prev h => by simp [lookupTs] at h)).2.2.1 rfl⟩

/-- C10: with the gates passed, when a fresh bar's POST fails — either the
request raises or the response status is not 200 — the last-seen entry for
its stock code has already been set to the failed bar's event time and is
not rolled back (only the corresponding failure log is emitted); an
identical retransmission of the same bar is then discarded as a duplicate
with no POST and no state change, so that bar is never delivered
downstream. -/
theorem on_ticks_no_rollback (hs : List Nat) (now : LocalTime)
    (ocf : PostCall → PostOutcome) (st : IngestorState) (sc : String)
    (ts : Int)
    (hflag : st.subscriptions_complete = true)
    (hopen : is_market_open hs now = true)
    (hfresh : ∀ prev, lookupTs st.last_seen_timestamps sc = some prev →
       prev < ts)
    (hfail : ocf ⟨sc, ts, 3⟩ = .requestException ∨
       ∃ c, ocf ⟨sc, ts, 3⟩ = .status c ∧ c ≠ 200) :
    lookupTs (on_ticks hs now ocf st
        (.single ⟨true, true, some ts, some sc, true⟩)).1.last_seen_timestamps
        sc = some ts ∧
    ((on_ticks hs now ocf st
        (.single ⟨true, true, some ts, some sc, true⟩)).2.2
       = [.httpRequestFailed (some sc)] ∨
     ∃ c, c ≠ 200 ∧
       (on_ticks hs now ocf st
          (.single ⟨true, true, some ts, some sc, true⟩)).2.2
         = [.ingestFailed sc c]) ∧
    on_ticks hs now ocf
        (on_ticks hs now ocf st
          (.single ⟨true, true, some ts, some sc, true⟩)).1
        (.single ⟨true, true, some ts, some sc, true⟩)
      = ((on_ticks hs now ocf st
          (.single ⟨true, true, some ts, some sc, true⟩)).1, [],
         [.duplicateSkip sc ts]) := by
  rw [on_ticks_single hs now ocf st _ hflag hopen]
  rw [processTick_fresh ocf st sc ts hfresh]
  have hflag' :
      ({ st with last_seen_timestamps := insertTs st.last_seen_timestamps sc ts } : IngestorState).subscriptions_complete = true :=
    hflag
  refine ⟨lookupTs_insertTs_self _ sc ts, ?_, ?_⟩
  · rcases hfail with hexc | ⟨c, hoc, hc200⟩
    · left
      simp [logOf, hexc]
    · right
      exact ⟨c, hc200, by simp [logOf, hoc, hc200]⟩
  · rw [on_ticks_single hs now ocf _ _ hflag' hopen]
    rw [processTick_dup ocf _ sc ts ts (lookupTs_insertTs_self _ sc ts)
      (le_refl ts)]

/-- Witness for C10, exercising both failure modes: the entry ("ACC", 100)
is stored although the POST raised (first half) and although the POST
returned status 500 (second half), and in both cases the retransmission of
the identical bar is discarded with no POST. -/
theorem on_ticks_no_rollback_witness :
    (lookupTs (on_ticks [] ⟨0, 36000⟩ (fun _ => .requestException) ⟨[], true⟩
        (.single ⟨true, true, some 100, some "ACC", true⟩)).1.last_seen_timestamps
        "ACC" = some 100 ∧
     (on_ticks [] ⟨0, 36000⟩ (fun _ => .requestException)
        (on_ticks [] ⟨0, 36000⟩ (fun _ => .requestException) ⟨[], true⟩
          (.single ⟨true, true, some 100, some "ACC", true⟩)).1
        (.single ⟨true, true, some 100, some "ACC", true⟩)).2.1 = []) ∧
    (lookupTs (on_ticks [] ⟨0, 36000⟩ (fun _ => .status 500) ⟨[], true⟩
        (.single ⟨true, true, some 100, some "ACC", true⟩)).1.last_seen_timestamps
        "ACC" = some 100 ∧
     (on_ticks [] ⟨0, 36000⟩ (fun _ => .status 500)
        (on_ticks [] ⟨0, 36000⟩ (fun _ => .status 500) ⟨[], true⟩
          (.single ⟨true, true, some 100, some "ACC", true⟩)).1
        (.single ⟨true, true, some 100, some "ACC", true⟩)).2.1 = []) :=
  ⟨⟨(on_ticks_no_rollback [] ⟨0, 36000⟩ (fun _ => .requestException)
       ⟨[], true⟩ "ACC" 100 rfl (by decide)
       (fun prev h => by simp [lookupTs] at h) (Or.inl rfl)).1,
    by
     rw [(on_ticks_no_rollback [] ⟨0, 36000⟩ (fun _ => .requestException)
       ⟨[], true⟩ "ACC" 100 rfl (by decide)
       (fun prev h => by simp [lookupTs] at h) (Or.inl rfl)).2.2]⟩,
   ⟨(on_ticks_no_rollback [] ⟨0, 36000⟩ (fun _ => .status 500)
       ⟨[], true⟩ "ACC" 100 rfl (by decide)
       (fun prev h => by simp [lookupTs] at h)
       (Or.inr ⟨500, rfl, by decide⟩)).1,
    by
     rw [(on_ticks_no_rollback [] ⟨0, 36000⟩ (fun _ => .status 500)
       ⟨[], true⟩ "ACC" 100 rfl (by decide)
       (fun prev h => by simp [lookupTs] at h)
       (Or.inr ⟨500, rfl, by decide⟩)).2.2]⟩⟩
